import Mathlib

/-!
Verification of the chaind standard scheduler
(src/services/scheduler/standard/service.go) and of the getlogs chainID
fetcher (src/unnamed/part_000), through a shallow embedding in Lean.

The embedding has four parts.

1. Shared data model: `Chan` models a capacity-1 Go channel of empty
   structs carrying ghost counters for the number of sends and
   successful closes; a send or close on an already-closed channel is a
   Go run-time panic, recorded in the `crashed` flag of the owning
   `Job`.  `Job` mirrors the `job` struct of service.go (lines 32-41):
   `active`, `finalised`, `periodic`, the two channels.  The
   `stateLock`/`jobsMutex` critical sections of the Go code become
   atomic steps of the models below.

2. A functional model of the registry operations (`ScheduleJob`,
   `SchedulePeriodicJob`, `RunJob`, `RunJobIfExists`, `CancelJob`,
   `JobExists`, `ListJobs`) over an association list, in namespace
   `Svc`.  Each operation is one critical section of the Go code and is
   modelled as a pure function from the registry (and the found record)
   to the updated registry, the updated record and the returned error.

3. A labelled small-step model of one scheduled one-off job
   (`ScheduleJob`'s goroutine, service.go lines 104-145) interleaved
   with `RunJob`/`CancelJob` calls on its name, timer expiry and parent
   context cancellation, in namespace `OneOff`.  Atomic steps are the
   code regions between channel interaction points; the `select` is a
   nondeterministic choice among ready cases, which covers the real Go
   schedules in which the goroutine reaches the `select` only after
   several channels have become ready.

4. A functional model of the periodic runner's loop (service.go lines
   187-242) under the schedule in which only timers fire (namespace
   `Periodic`), and of `chainID` (namespace `GetLogs`).
-/

namespace Chaind

/-- Errors returned by the scheduler package (`scheduler.Err...`). -/
inductive GoErr where
  | noJobName
  | noJobFunc
  | noRuntimeFunc
  | jobAlreadyExists
  | noSuchJob
  | jobRunning
  | jobFinalised
  deriving DecidableEq

/-- A capacity-1 Go channel of empty structs.  `pending` is true while a
sent message has not yet been received; `closed` is the Go closed bit.
`sends` and `closes` are ghost counters of the successful sends and
closes performed on the channel. -/
structure Chan where
  pending : Bool := false
  closed : Bool := false
  sends : Nat := 0
  closes : Nat := 0
  deriving DecidableEq

/-- Sending on a channel (`ch <- struct{}{}`).  A send on a closed
channel is a Go run-time panic, reported in the second component and
performing no send. -/
def chanSend (c : Chan) : Chan × Bool :=
  if c.closed = true then (c, true)
  else ({ c with pending := true, sends := c.sends + 1 }, false)

/-- Closing a channel (`close(ch)`).  Closing an already-closed channel
is a Go run-time panic, reported in the second component. -/
def chanClose (c : Chan) : Chan × Bool :=
  if c.closed = true then (c, true)
  else ({ c with closed := true, closes := c.closes + 1 }, false)

/-- The `job` struct of service.go (lines 32-41).  `crashed` is a ghost
flag recording that some channel operation on this record panicked; the
`stateLock` itself needs no representation because every critical
section it protects is one atomic step of the models. -/
structure Job where
  active : Bool := false
  finalised : Bool := false
  periodic : Bool := false
  cancelCh : Chan := {}
  runCh : Chan := {}
  crashed : Bool := false
  deriving DecidableEq

/-- `finaliseJob` (service.go lines 356-366): under the state lock, set
`finalised` and close both signal channels.  Note that the code does not
test `finalised` before closing: the function unconditionally closes
both channels. -/
def finaliseJob (j : Job) : Job :=
  { j with
    finalised := true,
    cancelCh := (chanClose j.cancelCh).1,
    runCh := (chanClose j.runCh).1,
    crashed := j.crashed || (chanClose j.cancelCh).2 || (chanClose j.runCh).2 }

namespace Svc

/-- The `jobs` map of the `Service` struct (service.go line 47), as an
association list from job names to records. -/
abbrev Registry := List (String × Job)

/-- Map lookup `s.jobs[name]`. -/
def lookupJ : Registry → String → Option Job
  | [], _ => none
  | (k, v) :: rest, n => if k = n then some v else lookupJ rest n

/-- Map deletion `delete(s.jobs, name)`. -/
def removeJ : Registry → String → Registry
  | [], _ => []
  | (k, v) :: rest, n => if k = n then removeJ rest n else (k, v) :: removeJ rest n

/-- Writing back the record held by pointer in the map: the Go map holds
`*job`, so mutating the record through the pointer updates the map
entry in place. -/
def updateJ : Registry → String → Job → Registry
  | [], _, _ => []
  | (k, v) :: rest, n, j => if k = n then (k, j) :: updateJ rest n j else (k, v) :: updateJ rest n j

/-- Result of a scheduling call: the returned error, the registry after
the call, and whether a runner goroutine was started. -/
structure SchedOut where
  err : Option GoErr
  jobs : Registry
  runnerStarted : Bool
  deriving DecidableEq

/-- `Service.ScheduleJob` registration part (service.go lines 75-101):
validation, the already-exists check, map insertion and goroutine
start-up.  The presence of the `jobFunc` argument is the boolean
`hasJobFunc` (`jobFunc == nil` in Go). -/
def ScheduleJob (jobs : Registry) (name : String) (hasJobFunc : Bool) : SchedOut :=
  if name = "" then ⟨some GoErr.noJobName, jobs, false⟩
  else if hasJobFunc = false then ⟨some GoErr.noJobFunc, jobs, false⟩
  else if (lookupJ jobs name).isSome = true then ⟨some GoErr.jobAlreadyExists, jobs, false⟩
  else ⟨none, (name, { periodic := false : Job }) :: jobs, true⟩

/-- `Service.SchedulePeriodicJob` registration part (service.go lines
154-187): as `ScheduleJob` with the additional `runtimeFunc` check,
performed before the `jobFunc` check. -/
def SchedulePeriodicJob (jobs : Registry) (name : String)
    (hasRuntimeFunc hasJobFunc : Bool) : SchedOut :=
  if name = "" then ⟨some GoErr.noJobName, jobs, false⟩
  else if hasRuntimeFunc = false then ⟨some GoErr.noRuntimeFunc, jobs, false⟩
  else if hasJobFunc = false then ⟨some GoErr.noJobFunc, jobs, false⟩
  else if (lookupJ jobs name).isSome = true then ⟨some GoErr.jobAlreadyExists, jobs, false⟩
  else ⟨none, (name, { periodic := true : Job }) :: jobs, true⟩

/-- The unexported `runJob` (service.go lines 370-385): under the state
lock, fail if the record is active or finalised, otherwise mark it
active and send on its run channel. -/
def runJobInner (j : Job) : Job × Option GoErr :=
  if j.active = true then (j, some GoErr.jobRunning)
  else if j.finalised = true then (j, some GoErr.jobFinalised)
  else
    ({ j with
        active := true,
        runCh := (chanSend j.runCh).1,
        crashed := j.crashed || (chanSend j.runCh).2 }, none)

/-- Result of `RunJob`/`CancelJob`: the returned error, the registry
after the call, and the record the operation ended up holding (through
the map's pointer), `none` when no record was found. -/
structure OpOut where
  err : Option GoErr
  jobs : Registry
  jrec : Option Job
  deriving DecidableEq

/-- `Service.RunJob` (service.go lines 249-264): look the job up, fail
with `NoSuchJob` if absent; a non-periodic job is deleted from the map
before `runJob` is called; then `runJob` runs on the record. -/
def RunJob (jobs : Registry) (name : String) : OpOut :=
  match lookupJ jobs name with
  | none => ⟨some GoErr.noSuchJob, jobs, none⟩
  | some j =>
    let jobs1 := if j.periodic = true then jobs else removeJ jobs name
    let jr := runJobInner j
    let jobs2 := if j.periodic = true then updateJ jobs1 name jr.1 else jobs1
    ⟨jr.2, jobs2, some jr.1⟩

/-- `Service.RunJobIfExists` (service.go lines 268-284): the same body
as `RunJob` with the error discarded. -/
def RunJobIfExists (jobs : Registry) (name : String) : Registry × Option Job :=
  ((RunJob jobs name).jobs, (RunJob jobs name).jrec)

/-- `Service.JobExists` (service.go lines 287-292). -/
def JobExists (jobs : Registry) (name : String) : Bool :=
  (lookupJ jobs name).isSome

/-- `Service.ListJobs` (service.go lines 295-304). -/
def ListJobs (jobs : Registry) : List String :=
  jobs.map (fun p => p.1)

/-- `Service.CancelJob` (service.go lines 308-329): fail with
`NoSuchJob` if absent; otherwise delete the entry, then, under the
record's state lock, return nil at once if the record is already
finalised, else set `finalised` and send on the cancel channel. -/
def CancelJob (jobs : Registry) (name : String) : OpOut :=
  match lookupJ jobs name with
  | none => ⟨some GoErr.noSuchJob, jobs, none⟩
  | some j =>
    if j.finalised = true then ⟨none, removeJ jobs name, some j⟩
    else
      ⟨none, removeJ jobs name,
        some { j with
                finalised := true,
                cancelCh := (chanSend j.cancelCh).1,
                crashed := j.crashed || (chanSend j.cancelCh).2 }⟩

end Svc

namespace OneOff

/-- Program counter of the one-off runner goroutine (the closure of
service.go lines 104-145).  `waiting` is the `select` not yet committed
to a case; the `Finalising` states are inside the context-done and
cancel branches after the receive; the `Executing` states are inside
`jobFunc`; `done` is goroutine exit. -/
inductive PC where
  | waiting
  | ctxFinalising
  | cancelFinalising
  | runExecuting
  | timerExecuting
  | done
  deriving DecidableEq

/-- Ghost record of which `select` case the runner committed to:
parent-context done, cancel signal, run signal, timer fired with the
job idle (executes), or timer fired with the job already active
(line 130-133, `break` without executing). -/
inductive Cause where
  | ctx
  | cancel
  | run
  | timerExec
  | timerSkip
  deriving DecidableEq

/-- Global state of one scheduled one-off job: whether its name is
still in the registry map, the shared `job` record, the runner's
program counter, whether the parent context is done, whether the
scheduled time has passed (making the `time.After` case ready), and two
ghost fields: the committed `select` case and the number of times the
job function was invoked. -/
structure St where
  registered : Bool
  job : Job
  pc : PC
  ctxDone : Bool
  timerFired : Bool
  termCause : Option Cause
  jobStarts : Nat
  deriving DecidableEq

/-- State right after `ScheduleJob` returned successfully (service.go
lines 95-104): record inserted, fresh channels, runner parked. -/
def init : St :=
  { registered := true, job := {}, pc := PC.waiting, ctxDone := false,
    timerFired := false, termCause := none, jobStarts := 0 }

/-- `Service.CancelJob` on this job's name (service.go lines 308-329),
one atomic step: the map lookup and delete under `jobsMutex`, then the
finalised test, flag store and cancel send under `stateLock`. -/
def cancelJobStep (s : St) : St × Option GoErr :=
  if s.registered = false then (s, some GoErr.noSuchJob)
  else if s.job.finalised = true then ({ s with registered := false }, none)
  else
    ({ s with
        registered := false,
        job := { s.job with
                  finalised := true,
                  cancelCh := (chanSend s.job.cancelCh).1,
                  crashed := s.job.crashed || (chanSend s.job.cancelCh).2 } }, none)

/-- `Service.RunJob` on this job's name (service.go lines 249-264 plus
the unexported `runJob`, lines 370-385), one atomic step: lookup and
(the job not being periodic) delete under `jobsMutex`, then the
active/finalised tests, active store and run send under `stateLock`. -/
def runJobStep (s : St) : St × Option GoErr :=
  if s.registered = false then (s, some GoErr.noSuchJob)
  else if s.job.active = true then ({ s with registered := false }, some GoErr.jobRunning)
  else if s.job.finalised = true then ({ s with registered := false }, some GoErr.jobFinalised)
  else
    ({ s with
        registered := false,
        job := { s.job with
                  active := true,
                  runCh := (chanSend s.job.runCh).1,
                  crashed := s.job.crashed || (chanSend s.job.runCh).2 } }, none)

/-- Labels of the interleaved steps: environment events (timer expiry,
parent-context cancellation), API calls carrying their returned error,
the runner's `select` commit to one of its cases, and the runner's
branch completions. -/
inductive Lab where
  | timer
  | ctx
  | cancelCall (res : Option GoErr)
  | runCall (res : Option GoErr)
  | selectCtx
  | selectCancel
  | selectRun
  | selectTimerSkip
  | selectTimerExec
  | finishCtx
  | finishCancel
  | finishRun
  | finishTimer
  deriving DecidableEq

/-- One interleaved step of the one-off system.  The runner's `select`
(service.go line 105) commits nondeterministically to any ready case:
this covers every real Go schedule, including those in which the
goroutine reaches the `select` statement only after several cases have
become ready, when Go chooses among them uniformly at random. -/
inductive Step : St → Lab → St → Prop where
  | timer (s : St) (h : s.timerFired = false) :
      Step s Lab.timer { s with timerFired := true }
  | ctx (s : St) (h : s.ctxDone = false) :
      Step s Lab.ctx { s with ctxDone := true }
  | cancelCall (s : St) :
      Step s (Lab.cancelCall (cancelJobStep s).2) (cancelJobStep s).1
  | runCall (s : St) :
      Step s (Lab.runCall (runJobStep s).2) (runJobStep s).1
  | selectCtx (s : St) (hw : s.pc = PC.waiting) (hc : s.ctxDone = true) :
      -- lines 106-110: receive ctx.Done, delete the map entry
      Step s Lab.selectCtx
        { s with registered := false, pc := PC.ctxFinalising, termCause := some Cause.ctx }
  | selectCancel (s : St) (hw : s.pc = PC.waiting) (hp : s.job.cancelCh.pending = true) :
      -- lines 113-114: receive the cancel signal (entry already deleted)
      Step s Lab.selectCancel
        { s with
            job := { s.job with cancelCh := { s.job.cancelCh with pending := false } },
            pc := PC.cancelFinalising, termCause := some Cause.cancel }
  | selectRun (s : St) (hw : s.pc = PC.waiting) (hp : s.job.runCh.pending = true) :
      -- lines 119-124: receive the run signal (entry already deleted) and enter jobFunc
      Step s Lab.selectRun
        { s with
            job := { s.job with runCh := { s.job.runCh with pending := false } },
            pc := PC.runExecuting, termCause := some Cause.run,
            jobStarts := s.jobStarts + 1 }
  | selectTimerSkip (s : St) (hw : s.pc = PC.waiting) (ht : s.timerFired = true)
      (ha : s.job.active = true) :
      -- lines 128-133: timer fired but the job is already active: break
      Step s Lab.selectTimerSkip
        { s with pc := PC.done, termCause := some Cause.timerSkip }
  | selectTimerExec (s : St) (hw : s.pc = PC.waiting) (ht : s.timerFired = true)
      (ha : s.job.active = false) :
      -- lines 128-140: timer fired, job idle: delete the entry, store active, enter jobFunc
      Step s Lab.selectTimerExec
        { s with
            registered := false, job := { s.job with active := true },
            pc := PC.timerExecuting, termCause := some Cause.timerExec,
            jobStarts := s.jobStarts + 1 }
  | finishCtx (s : St) (hw : s.pc = PC.ctxFinalising) :
      -- line 111: finaliseJob, then the goroutine returns
      Step s Lab.finishCtx { s with job := finaliseJob s.job, pc := PC.done }
  | finishCancel (s : St) (hw : s.pc = PC.cancelFinalising) :
      -- line 117: finaliseJob, then the goroutine returns
      Step s Lab.finishCancel { s with job := finaliseJob s.job, pc := PC.done }
  | finishRun (s : St) (hw : s.pc = PC.runExecuting) :
      -- lines 125-127: jobFunc returns, finaliseJob, then active := false
      Step s Lab.finishRun
        { s with job := { finaliseJob s.job with active := false }, pc := PC.done }
  | finishTimer (s : St) (hw : s.pc = PC.timerExecuting) :
      -- lines 141-143: jobFunc returns, active := false, then finaliseJob
      Step s Lab.finishTimer
        { s with job := finaliseJob { s.job with active := false }, pc := PC.done }

/-- A finite labelled run of the system. -/
inductive Steps : St → List Lab → St → Prop where
  | nil (s : St) : Steps s [] s
  | cons {s t u : St} {l : Lab} {ls : List Lab}
      (h : Step s l t) (hs : Steps t ls u) : Steps s (l :: ls) u

/-- A state is reachable if some run from the freshly scheduled state
ends in it. -/
def Reach (s : St) : Prop := ∃ ls, Steps init ls s

/-- Number of job-function invocations implied by the committed
`select` case. -/
def causeStarts : Option Cause → Nat
  | some Cause.run => 1
  | some Cause.timerExec => 1
  | _ => 0

/-- Both signal channels are closed exactly when the runner has exited
through a branch that calls `finaliseJob` — every branch except the
timer-fired-while-active `break` (lines 130-133). -/
def finClosed (s : St) : Bool :=
  if s.pc = PC.done ∧ s.termCause ≠ some Cause.timerSkip then true else false

/-- Inductive invariant of the one-off system: the correspondence
between the runner's program counter and the committed `select` case,
the ghost execution count, channel-state bookkeeping, and the flag
facts the claims rest on. -/
structure InvS (s : St) : Prop where
  waitCause : s.pc = PC.waiting → s.termCause = none
  ctxCause : s.pc = PC.ctxFinalising → s.termCause = some Cause.ctx
  cancelCause : s.pc = PC.cancelFinalising → s.termCause = some Cause.cancel
  runCause : s.pc = PC.runExecuting → s.termCause = some Cause.run
  timerCause : s.pc = PC.timerExecuting → s.termCause = some Cause.timerExec
  doneCause : s.pc = PC.done → s.termCause ≠ none
  startsEq : s.jobStarts = causeStarts s.termCause
  noCrash : s.job.crashed = false
  cClosed : s.job.cancelCh.closed = finClosed s
  rClosed : s.job.runCh.closed = finClosed s
  cCloses : s.job.cancelCh.closes = (if finClosed s = true then 1 else 0)
  rCloses : s.job.runCh.closes = (if finClosed s = true then 1 else 0)
  cSendsFin : s.job.finalised = false → s.job.cancelCh.sends = 0
  rSendsReg : s.registered = true → s.job.runCh.sends = 0
  cPendSends : s.job.cancelCh.pending = true → 1 ≤ s.job.cancelCh.sends
  rPendActive : s.job.runCh.pending = true → s.job.active = true
  activeNotReg : s.job.active = true → s.registered = false
  finalisedNotReg : s.job.finalised = true → s.registered = false
  notWaitNotReg : s.pc ≠ PC.waiting → s.registered = false
  runActive : s.pc = PC.runExecuting → s.job.active = true
  timerActive : s.pc = PC.timerExecuting → s.job.active = true
  runNoPend : s.pc = PC.runExecuting → s.job.runCh.pending = false
  timerNoPend : s.pc = PC.timerExecuting → s.job.runCh.pending = false
  doneExecInactive : s.pc = PC.done →
    s.termCause = some Cause.run ∨ s.termCause = some Cause.timerExec →
    s.job.active = false

/-- The state reached from `init` by the run [timer, selectTimerExec,
finishTimer]: the timer fired, the runner executed the job and
finalised the record. -/
def sTimerRun : St :=
  { registered := false,
    job := { finalised := true,
             cancelCh := { closed := true, closes := 1 },
             runCh := { closed := true, closes := 1 } },
    pc := PC.done, ctxDone := false, timerFired := true,
    termCause := some Cause.timerExec, jobStarts := 1 }

/-- The state reached from `init` by the run [runCall, selectRun]: a
successful `RunJob` signalled the run channel and the runner is now
executing the job function. -/
def sRunning : St :=
  { registered := false,
    job := { active := true, runCh := { sends := 1 } },
    pc := PC.runExecuting, ctxDone := false, timerFired := false,
    termCause := some Cause.run, jobStarts := 1 }

/-- The state reached from `init` by the run [cancelCall]: a successful
`CancelJob` removed the entry, set `finalised` and queued the cancel
signal; the runner has not yet observed it. -/
def sCancelled : St :=
  { registered := false,
    job := { finalised := true, cancelCh := { pending := true, sends := 1 } },
    pc := PC.waiting, ctxDone := false, timerFired := false,
    termCause := none, jobStarts := 0 }

/-- `sCancelled` after the timer fires. -/
def sCancelledT : St :=
  { sCancelled with timerFired := true }

end OneOff

namespace Periodic

/-- Outcome of one invocation of the runtime-computing callable
(`runtimeFunc`): a next execution instant, the `ErrNoMoreInstances`
sentinel, or any other error. -/
inductive RtRes where
  | ok (t : Nat)
  | noMore
  | fail
  deriving DecidableEq

/-- Observable outcome of a terminated periodic-runner loop: how many
times the job function ran, whether the record was deleted from the
registry and finalised on exit, whether a failure was logged
(`log.Error`), and the error surfaced to the scheduling caller — the
goroutine has no channel back to the caller, so this is always
`none`. -/
structure LoopOut where
  execs : Nat
  removedFromRegistry : Bool
  finalised : Bool
  loggedFailure : Bool
  callerErr : Option GoErr
  deriving DecidableEq

/-- The periodic runner's loop (service.go lines 187-242) under the
schedule singled out by the claim: the parent context is never
cancelled and no cancel or run signal is ever sent, so each iteration
either stops at `runtimeFunc`'s sentinel or error (lines 190-207), or
waits for the timer and, the record never being active under this
schedule, executes the job function (lines 229-239).  `i` is the
1-based index of the `runtimeFunc` invocation, `execs` the number of
completed job-function executions, and the fuel bounds the number of
iterations, `none` meaning the loop is still running. -/
def loop (rf : Nat → RtRes) : Nat → Nat → Nat → Option LoopOut
  | 0, _, _ => none
  | fuel + 1, i, execs =>
    match rf i with
    | RtRes.noMore => some ⟨execs, true, true, false, none⟩
    | RtRes.fail => some ⟨execs, true, true, true, none⟩
    | RtRes.ok _ => loop rf fuel (i + 1) (execs + 1)

/-- The loop body's two terminal branches as a function of the
runtime-callable result. -/
def termOut (r : RtRes) (e : Nat) : Option LoopOut :=
  match r with
  | RtRes.noMore => some ⟨e, true, true, false, none⟩
  | RtRes.fail => some ⟨e, true, true, true, none⟩
  | RtRes.ok _ => none

end Periodic

namespace GetLogs

/-- Value of one hexadecimal digit, as accepted by Go's
`strconv.ParseUint` with base 16 (digits, lower-case and upper-case
letters). -/
def hexDigitVal (c : Char) : Option Nat :=
  if '0' ≤ c ∧ c ≤ '9' then some (c.toNat - '0'.toNat)
  else if 'a' ≤ c ∧ c ≤ 'f' then some (c.toNat - 'a'.toNat + 10)
  else if 'A' ≤ c ∧ c ≤ 'F' then some (c.toNat - 'A'.toNat + 10)
  else none

/-- Digit loop of `strconv.ParseUint(s, 16, 64)`: accumulate base-16
digits, failing on a non-digit or when the accumulated value leaves the
unsigned 64-bit range. -/
def parseHexDigits : List Char → Nat → Option Nat
  | [], acc => some acc
  | c :: rest, acc =>
    match hexDigitVal c with
    | none => none
    | some d => if acc * 16 + d < 2 ^ 64 then parseHexDigits rest (acc * 16 + d) else none

/-- `strconv.ParseUint(s, 16, 64)`: an empty string is an error; with
base 16 given explicitly no `0x` marker is accepted. -/
def parseUintHex64 (s : String) : Option Nat :=
  if s = "" then none else parseHexDigits s.data 0

/-- `strings.TrimPrefix(response.Result, "0x")`: drop a leading `0x` if
present, otherwise return the string unchanged. -/
def trimHexMarker (s : String) : String :=
  match s.data with
  | '0' :: 'x' :: rest => String.mk rest
  | _ => s

/-- The observable outcome of the HTTP/JSON exchange in `chainID`
(part_000 lines 40-52): the post failed, the response body reader was
nil, the body did not decode as JSON, or it decoded and carried this
`Result` field. -/
inductive PostOutcome where
  | postFailed
  | nilBody
  | badJSON
  | decoded (result : String)
  deriving DecidableEq

/-- What `chainID` returns: the uint64 value and whether the error
result was non-nil. -/
structure ChainIDOut where
  value : Nat
  isErr : Bool
  deriving DecidableEq

/-- `Service.chainID` (part_000 lines 32-60) as a function of the
exchange outcome: every failure returns zero with an error; a decoded
`Result` is parsed as base-16 uint64 after `TrimPrefix "0x"`. -/
def chainID : PostOutcome → ChainIDOut
  | PostOutcome.postFailed => ⟨0, true⟩
  | PostOutcome.nilBody => ⟨0, true⟩
  | PostOutcome.badJSON => ⟨0, true⟩
  | PostOutcome.decoded r =>
    match parseUintHex64 (trimHexMarker r) with
    | none => ⟨0, true⟩
    | some v => ⟨v, false⟩

end GetLogs

/-- A Boolean that is not false is true. -/
theorem bool_not_false {b : Bool} (h : ¬ b = false) : b = true := by
  cases hb : b
  · exact absurd hb h
  · rfl

/-- A Boolean that is not true is false. -/
theorem bool_not_true {b : Bool} (h : ¬ b = true) : b = false := by
  cases hb : b
  · rfl
  · exact absurd hb h

/-- Sending on an open channel queues the message and counts the
send. -/
theorem chanSend_open {c : Chan} (h : c.closed = false) :
    chanSend c = ({ c with pending := true, sends := c.sends + 1 }, false) := by
  simp [chanSend, h]

/-- Closing never changes the send counter. -/
theorem chanClose_sends (c : Chan) : (chanClose c).1.sends = c.sends := by
  unfold chanClose
  split <;> rfl

/-- Closing an open pair of channels: `finaliseJob` on a record whose
channels are both open sets `finalised` and marks both channels closed,
counting one close each. -/
theorem finaliseJob_open {j : Job} (hc : j.cancelCh.closed = false)
    (hr : j.runCh.closed = false) :
    finaliseJob j =
      { j with
        finalised := true,
        cancelCh := { j.cancelCh with closed := true, closes := j.cancelCh.closes + 1 },
        runCh := { j.runCh with closed := true, closes := j.runCh.closes + 1 } } := by
  simp [finaliseJob, chanClose, hc, hr]

/-- `finaliseJob` never performs a send. -/
theorem finaliseJob_sends (j : Job) :
    (finaliseJob j).cancelCh.sends = j.cancelCh.sends ∧
      (finaliseJob j).runCh.sends = j.runCh.sends :=
  ⟨chanClose_sends j.cancelCh, chanClose_sends j.runCh⟩

namespace Svc

/-- Looking a key up after an in-place update through the map's pointer
finds the updated record. -/
theorem lookupJ_updateJ_self (l : Registry) (n : String) (j j' : Job)
    (h : lookupJ l n = some j) : lookupJ (updateJ l n j') n = some j' := by
  induction l with
  | nil => simp [lookupJ] at h
  | cons p rest ih =>
    obtain ⟨k, v⟩ := p
    by_cases hk : k = n
    · simp [lookupJ, updateJ, hk]
    · simp only [lookupJ, updateJ, hk, if_false, if_neg hk] at h ⊢
      exact ih h

/-- An in-place update leaves the set of registered names unchanged. -/
theorem listJobs_updateJ (l : Registry) (n : String) (j' : Job) :
    ListJobs (updateJ l n j') = ListJobs l := by
  induction l with
  | nil => rfl
  | cons p rest ih =>
    obtain ⟨k, v⟩ := p
    by_cases hk : k = n
    · simp only [updateJ, if_pos hk, ListJobs, List.map_cons]
      exact congrArg (List.cons k) ih
    · simp only [updateJ, if_neg hk, ListJobs, List.map_cons]
      exact congrArg (List.cons k) ih

/-- A name with a registered record appears in the `ListJobs`
snapshot. -/
theorem mem_listJobs_of_lookupJ (l : Registry) (n : String) (j : Job)
    (h : lookupJ l n = some j) : n ∈ ListJobs l := by
  induction l with
  | nil => simp [lookupJ] at h
  | cons p rest ih =>
    obtain ⟨k, v⟩ := p
    by_cases hk : k = n
    · simp [ListJobs, hk]
    · simp only [lookupJ, if_neg hk] at h
      simp only [ListJobs, List.map_cons, List.mem_cons]
      exact Or.inr (ih h)

/-- C5: `RunJob(name)` returns `NoSuchJob` when no job with that name
is registered; when a registered one-off job is found it is removed
from the registry (the removal is performed before `runJob` signals the
run channel), and `RunJob` returns `JobRunning` if the record's active
flag is set, `JobFinalised` if its finalised flag is set (the active
test coming first in the code), and otherwise succeeds, having marked
the record active and sent exactly one message on its run channel. -/
theorem runJob_contract (jobs : Registry) (name : String) :
    (lookupJ jobs name = none → RunJob jobs name = ⟨some GoErr.noSuchJob, jobs, none⟩) ∧
    (∀ j : Job, lookupJ jobs name = some j → j.periodic = false →
      (RunJob jobs name).jobs = removeJ jobs name ∧
      (j.active = true →
        (RunJob jobs name).err = some GoErr.jobRunning ∧
        (RunJob jobs name).jrec = some j) ∧
      (j.active = false → j.finalised = true →
        (RunJob jobs name).err = some GoErr.jobFinalised ∧
        (RunJob jobs name).jrec = some j) ∧
      (j.active = false → j.finalised = false → j.runCh.closed = false →
        (RunJob jobs name).err = none ∧
        ∃ j', (RunJob jobs name).jrec = some j' ∧ j'.active = true ∧
          j'.runCh.pending = true ∧ j'.runCh.sends = j.runCh.sends + 1)) := by
  constructor
  · intro h
    simp [RunJob, h]
  · intro j hj hp
    refine ⟨?_, ?_, ?_, ?_⟩
    · simp [RunJob, hj, hp]
    · intro ha
      constructor <;> simp [RunJob, hj, hp, runJobInner, ha]
    · intro ha hf
      constructor <;> simp [RunJob, hj, hp, runJobInner, ha, hf]
    · intro ha hf hcl
      constructor
      · simp [RunJob, hj, hp, runJobInner, ha, hf]
      · refine ⟨{ j with
            active := true,
            runCh := { j.runCh with pending := true, sends := j.runCh.sends + 1 } },
          ?_, rfl, rfl, rfl⟩
        simp [RunJob, hj, hp, runJobInner, ha, hf, chanSend_open hcl]

/-- C5 witness: running the one-off job record freshly registered under
the name a removes it and signals its run channel. -/
theorem runJob_contract_witness :
    (RunJob [("a", ({} : Job))] "a").jobs = removeJ [("a", ({} : Job))] "a" ∧
    (RunJob [("a", ({} : Job))] "a").err = none ∧
    ∃ j', (RunJob [("a", ({} : Job))] "a").jrec = some j' ∧ j'.active = true ∧
      j'.runCh.pending = true ∧ j'.runCh.sends = ({} : Chan).sends + 1 := by
  have h := (runJob_contract [("a", ({} : Job))] "a").2 {} (by decide) rfl
  exact ⟨h.1, (h.2.2.2 rfl rfl rfl).1, (h.2.2.2 rfl rfl rfl).2⟩

/-- C6: `CancelJob(name)` returns `NoSuchJob` when no job with that
name is registered, leaving the registry unchanged; otherwise it
removes the entry, returns success, and signals cancellation exactly
when the record was not already finalised — on an already-finalised
record it performs no send and still returns success, never an
error. -/
theorem cancelJob_contract (jobs : Registry) (name : String) :
    (lookupJ jobs name = none → CancelJob jobs name = ⟨some GoErr.noSuchJob, jobs, none⟩) ∧
    (∀ j : Job, lookupJ jobs name = some j →
      (CancelJob jobs name).err = none ∧
      (CancelJob jobs name).jobs = removeJ jobs name ∧
      (j.finalised = true → (CancelJob jobs name).jrec = some j) ∧
      (j.finalised = false → j.cancelCh.closed = false →
        ∃ j', (CancelJob jobs name).jrec = some j' ∧ j'.finalised = true ∧
          j'.cancelCh.pending = true ∧ j'.cancelCh.sends = j.cancelCh.sends + 1)) := by
  constructor
  · intro h
    simp [CancelJob, h]
  · intro j hj
    refine ⟨?_, ?_, ?_, ?_⟩
    · by_cases hf : j.finalised = true <;> simp [CancelJob, hj, hf]
    · by_cases hf : j.finalised = true <;> simp [CancelJob, hj, hf]
    · intro hf
      simp [CancelJob, hj, hf]
    · intro hf hcl
      refine ⟨{ j with
          finalised := true,
          cancelCh := { j.cancelCh with pending := true, sends := j.cancelCh.sends + 1 } },
        ?_, rfl, rfl, rfl⟩
      simp [CancelJob, hj, hf, chanSend_open hcl]

/-- C6 witness: cancelling a registered, not yet finalised job removes
it, succeeds and sends the cancel signal; cancelling an
already-finalised record still succeeds. -/
theorem cancelJob_contract_witness :
    ((CancelJob [("a", ({} : Job))] "a").err = none ∧
      (CancelJob [("a", ({} : Job))] "a").jobs = removeJ [("a", ({} : Job))] "a" ∧
      ∃ j', (CancelJob [("a", ({} : Job))] "a").jrec = some j' ∧ j'.finalised = true ∧
        j'.cancelCh.pending = true ∧ j'.cancelCh.sends = ({} : Chan).sends + 1) ∧
    (CancelJob [("b", ({ finalised := true } : Job))] "b").err = none := by
  have h := (cancelJob_contract [("a", ({} : Job))] "a").2 {} (by decide)
  have h2 := (cancelJob_contract [("b", ({ finalised := true } : Job))] "b").2
    { finalised := true } (by decide)
  exact ⟨⟨h.1, h.2.1, h.2.2.2 rfl rfl⟩, h2.1⟩

/-- C7: `ScheduleJob` returns `NoJobName` on an empty name, `NoJobFunc`
on an absent job callable and `JobAlreadyExists` on a registered name;
`SchedulePeriodicJob` performs the same validation and additionally
returns `NoRuntimeFunc` on an absent runtime callable (that check
coming before the job-callable check); in every failure case the
registry is unchanged and no runner goroutine is started. -/
theorem schedule_validation (jobs : Registry) (name : String) (hrt hjf : Bool) :
    (name = "" →
      ScheduleJob jobs name hjf = ⟨some GoErr.noJobName, jobs, false⟩ ∧
      SchedulePeriodicJob jobs name hrt hjf = ⟨some GoErr.noJobName, jobs, false⟩) ∧
    (name ≠ "" → hjf = false →
      ScheduleJob jobs name hjf = ⟨some GoErr.noJobFunc, jobs, false⟩) ∧
    (name ≠ "" → hrt = false →
      SchedulePeriodicJob jobs name hrt hjf = ⟨some GoErr.noRuntimeFunc, jobs, false⟩) ∧
    (name ≠ "" → hrt = true → hjf = false →
      SchedulePeriodicJob jobs name hrt hjf = ⟨some GoErr.noJobFunc, jobs, false⟩) ∧
    (name ≠ "" → hjf = true → (lookupJ jobs name).isSome = true →
      ScheduleJob jobs name hjf = ⟨some GoErr.jobAlreadyExists, jobs, false⟩) ∧
    (name ≠ "" → hrt = true → hjf = true → (lookupJ jobs name).isSome = true →
      SchedulePeriodicJob jobs name hrt hjf = ⟨some GoErr.jobAlreadyExists, jobs, false⟩) := by
  refine ⟨?_, ?_, ?_, ?_, ?_, ?_⟩ <;> intros <;>
    simp [ScheduleJob, SchedulePeriodicJob, *]

/-- C7 witness: the empty name, a missing runtime callable and an
already-registered name are each rejected without touching the
registry or starting a runner. -/
theorem schedule_validation_witness :
    ScheduleJob [] "" false = ⟨some GoErr.noJobName, [], false⟩ ∧
    SchedulePeriodicJob [] "x" false true = ⟨some GoErr.noRuntimeFunc, [], false⟩ ∧
    ScheduleJob [("x", ({} : Job))] "x" true =
      ⟨some GoErr.jobAlreadyExists, [("x", ({} : Job))], false⟩ := by
  refine ⟨((schedule_validation [] "" false false).1 rfl).1, ?_, ?_⟩
  · exact (schedule_validation [] "x" false true).2.2.1 (by decide) rfl
  · exact (schedule_validation [("x", {})] "x" true true).2.2.2.2.1 (by decide) rfl (by decide)

/-- C9: neither `RunJob` nor `RunJobIfExists` removes a periodic job's
registry entry: only non-periodic jobs are deleted before the run
signal, so after the call the name is still visible to `JobExists` and
`ListJobs`. -/
theorem runJob_keeps_periodic_registered (jobs : Registry) (name : String) (j : Job)
    (h : lookupJ jobs name = some j) (hp : j.periodic = true) :
    JobExists (RunJob jobs name).jobs name = true ∧
    name ∈ ListJobs (RunJob jobs name).jobs ∧
    JobExists (RunJobIfExists jobs name).1 name = true ∧
    name ∈ ListJobs (RunJobIfExists jobs name).1 := by
  have hjobs : (RunJob jobs name).jobs = updateJ jobs name (runJobInner j).1 := by
    simp [RunJob, h, hp]
  have hlook := lookupJ_updateJ_self jobs name j (runJobInner j).1 h
  have h1 : JobExists (RunJob jobs name).jobs name = true := by
    rw [hjobs]
    simp [JobExists, hlook]
  have h2 : name ∈ ListJobs (RunJob jobs name).jobs := by
    rw [hjobs, listJobs_updateJ]
    exact mem_listJobs_of_lookupJ jobs name j h
  exact ⟨h1, h2, h1, h2⟩

/-- C9 witness: running the registered periodic job p leaves it
visible to `JobExists` and `ListJobs` through both entry points. -/
theorem runJob_keeps_periodic_registered_witness :
    JobExists (RunJob [("p", ({ periodic := true } : Job))] "p").jobs "p" = true ∧
    "p" ∈ ListJobs (RunJob [("p", ({ periodic := true } : Job))] "p").jobs ∧
    JobExists (RunJobIfExists [("p", ({ periodic := true } : Job))] "p").1 "p" = true ∧
    "p" ∈ ListJobs (RunJobIfExists [("p", ({ periodic := true } : Job))] "p").1 :=
  runJob_keeps_periodic_registered [("p", { periodic := true })] "p"
    { periodic := true } (by decide) rfl

end Svc

namespace Periodic

/-- After `d` successful runtime computations the loop has executed the
job `d` more times and stops at the first non-`ok` result. -/
theorem loop_term (rf : Nat → RtRes) :
    ∀ (d i e : Nat), (∀ k, k < d → ∃ t, rf (i + k) = RtRes.ok t) →
      (∀ t, rf (i + d) ≠ RtRes.ok t) →
      loop rf (d + 1) i e = termOut (rf (i + d)) (e + d) := by
  intro d
  induction d with
  | zero =>
    intro i e _ hterm
    rw [Nat.add_zero] at hterm ⊢
    cases hr : rf i with
    | ok t => exact absurd hr (hterm t)
    | noMore => simp [loop, hr, termOut]
    | fail => simp [loop, hr, termOut]
  | succ d ih =>
    intro i e hok hterm
    obtain ⟨t, ht⟩ := hok 0 (Nat.succ_pos d)
    rw [Nat.add_zero] at ht
    have step : loop rf (d + 1 + 1) i e = loop rf (d + 1) (i + 1) (e + 1) := by
      simp [loop, ht]
    rw [step]
    have hok' : ∀ k, k < d → ∃ u, rf (i + 1 + k) = RtRes.ok u := by
      intro k hk
      have h := hok (k + 1) (Nat.succ_lt_succ hk)
      rwa [show i + (k + 1) = i + 1 + k by omega] at h
    have hterm' : ∀ u, rf (i + 1 + d) ≠ RtRes.ok u := by
      intro u
      have h := hterm u
      rwa [show i + (d + 1) = i + 1 + d by omega] at h
    rw [ih (i + 1) (e + 1) hok', show i + 1 + d = i + (d + 1) by omega,
      show e + 1 + d = e + (d + 1) by omega]
    exact hterm'

/-- C4: a periodic job whose runtime callable answers `ok` on its first
N-1 invocations, driven only by timer expiry with no cancel or run
signals, executes the job function exactly N-1 times; if the Nth
invocation returns the no-more-instances sentinel the record is removed
from the registry and finalised with nothing logged as a failure and no
error surfaced to the scheduling caller, and if it returns any other
error the record is likewise removed and finalised after logging the
failure. -/
theorem sentinel_stops_after_n_minus_one (rf : Nat → RtRes) (N : Nat) (h1 : 1 ≤ N)
    (hok : ∀ i, 1 ≤ i → i < N → ∃ t, rf i = RtRes.ok t) :
    (rf N = RtRes.noMore →
      loop rf N 1 0 = some ⟨N - 1, true, true, false, none⟩) ∧
    (rf N = RtRes.fail →
      loop rf N 1 0 = some ⟨N - 1, true, true, true, none⟩) := by
  obtain ⟨d, rfl⟩ : ∃ d, N = d + 1 := ⟨N - 1, by omega⟩
  have hok' : ∀ k, k < d → ∃ t, rf (1 + k) = RtRes.ok t := by
    intro k hk
    exact hok (1 + k) (by omega) (by omega)
  constructor
  · intro hN
    have hterm : ∀ t, rf (1 + d) ≠ RtRes.ok t := by
      intro t h
      rw [show (1 : Nat) + d = d + 1 by omega, hN] at h
      cases h
    rw [loop_term rf d 1 0 hok' hterm, show (1 : Nat) + d = d + 1 by omega, hN]
    simp [termOut]
  · intro hN
    have hterm : ∀ t, rf (1 + d) ≠ RtRes.ok t := by
      intro t h
      rw [show (1 : Nat) + d = d + 1 by omega, hN] at h
      cases h
    rw [loop_term rf d 1 0 hok' hterm, show (1 : Nat) + d = d + 1 by omega, hN]
    simp [termOut]

/-- C4 witness: with ok, ok, sentinel the loop runs the job exactly
twice, then removes and finalises the record with no logged failure. -/
theorem sentinel_stops_after_n_minus_one_witness :
    loop (fun i => if i < 3 then RtRes.ok 0 else RtRes.noMore) 3 1 0 =
      some ⟨2, true, true, false, none⟩ :=
  (sentinel_stops_after_n_minus_one (fun i => if i < 3 then RtRes.ok 0 else RtRes.noMore)
    3 (by omega) (fun i h1 h2 => ⟨0, by interval_cases i <;> rfl⟩)).1 (by rfl)

end Periodic

namespace GetLogs

/-- C10: `chainID` returns zero together with an error whenever the
post fails, the response body is absent or the body does not decode as
JSON; on a decoded `Result` field it strips a leading 0x marker and
parses the rest as a base-16 unsigned 64-bit integer, returning the
parsed value on success and zero with an error when the parse fails. -/
theorem chainID_contract (o : PostOutcome) :
    ((o = PostOutcome.postFailed ∨ o = PostOutcome.nilBody ∨ o = PostOutcome.badJSON) →
      chainID o = ⟨0, true⟩) ∧
    (∀ r, o = PostOutcome.decoded r →
      (∀ v, parseUintHex64 (trimHexMarker r) = some v → chainID o = ⟨v, false⟩) ∧
      (parseUintHex64 (trimHexMarker r) = none → chainID o = ⟨0, true⟩)) := by
  constructor
  · rintro (rfl | rfl | rfl) <;> rfl
  · rintro r rfl
    constructor
    · intro v hv
      simp [chainID, hv]
    · intro hv
      simp [chainID, hv]

/-- C10 witness: a decoded result 0x2a parses to 42 without error, a
decoded non-hexadecimal result gives zero with an error, and a failed
post gives zero with an error. -/
theorem chainID_contract_witness :
    chainID (PostOutcome.decoded "0x2a") = ⟨42, false⟩ ∧
    chainID (PostOutcome.decoded "xyz") = ⟨0, true⟩ ∧
    chainID PostOutcome.postFailed = ⟨0, true⟩ :=
  ⟨((chainID_contract (PostOutcome.decoded "0x2a")).2 "0x2a" rfl).1 42 (by decide),
    ((chainID_contract (PostOutcome.decoded "xyz")).2 "xyz" rfl).2 (by decide),
    (chainID_contract PostOutcome.postFailed).1 (Or.inl rfl)⟩

end GetLogs

namespace OneOff

/-- `CancelJob` on an absent name: `NoSuchJob`, no state change. -/
theorem cancelJobStep_noReg {s : St} (h : s.registered = false) :
    cancelJobStep s = (s, some GoErr.noSuchJob) := by
  simp [cancelJobStep, h]

/-- `CancelJob` on a registered, already finalised record: the entry is
removed and the call succeeds without sending. -/
theorem cancelJobStep_finalised {s : St} (hreg : s.registered = true)
    (hfin : s.job.finalised = true) :
    cancelJobStep s = ({ s with registered := false }, none) := by
  simp [cancelJobStep, hreg, hfin]

/-- `CancelJob` on a registered, not finalised record with an open
cancel channel: the entry is removed, `finalised` is set and the
cancel signal is sent. -/
theorem cancelJobStep_send {s : St} (hreg : s.registered = true)
    (hfin : s.job.finalised = false) (hcl : s.job.cancelCh.closed = false) :
    cancelJobStep s =
      ({ s with
          registered := false,
          job := { s.job with
                    finalised := true,
                    cancelCh := { s.job.cancelCh with
                                  pending := true,
                                  sends := s.job.cancelCh.sends + 1 } } }, none) := by
  simp [cancelJobStep, hreg, hfin, chanSend, hcl]

/-- `RunJob` on an absent name: `NoSuchJob`, no state change. -/
theorem runJobStep_noReg {s : St} (h : s.registered = false) :
    runJobStep s = (s, some GoErr.noSuchJob) := by
  simp [runJobStep, h]

/-- `RunJob` on a registered active record: the one-off entry is
removed and the call fails with `JobRunning`. -/
theorem runJobStep_running {s : St} (hreg : s.registered = true)
    (ha : s.job.active = true) :
    runJobStep s = ({ s with registered := false }, some GoErr.jobRunning) := by
  simp [runJobStep, hreg, ha]

/-- `RunJob` on a registered, idle, finalised record: the one-off entry
is removed and the call fails with `JobFinalised`. -/
theorem runJobStep_finalised {s : St} (hreg : s.registered = true)
    (ha : s.job.active = false) (hfin : s.job.finalised = true) :
    runJobStep s = ({ s with registered := false }, some GoErr.jobFinalised) := by
  simp [runJobStep, hreg, ha, hfin]

/-- `RunJob` on a registered, idle, not finalised record with an open
run channel: the entry is removed, `active` is set and the run signal
is sent. -/
theorem runJobStep_send {s : St} (hreg : s.registered = true)
    (ha : s.job.active = false) (hfin : s.job.finalised = false)
    (hcl : s.job.runCh.closed = false) :
    runJobStep s =
      ({ s with
          registered := false,
          job := { s.job with
                    active := true,
                    runCh := { s.job.runCh with
                               pending := true,
                               sends := s.job.runCh.sends + 1 } } }, none) := by
  simp [runJobStep, hreg, ha, hfin, chanSend, hcl]

/-- The channels are only closed once the runner has exited. -/
theorem finClosed_done {s : St} (h : finClosed s = true) : s.pc = PC.done := by
  by_cases hp : s.pc = PC.done
  · exact hp
  · simp [finClosed, hp] at h

/-- The freshly scheduled state satisfies the invariant. -/
theorem init_inv : InvS init := by
  constructor <;> decide

/-- Every step of the one-off system preserves the invariant. -/
theorem step_inv {s : St} {l : Lab} {t : St} (hv : InvS s) (h : Step s l t) : InvS t := by
  cases h with
  | timer h0 =>
    exact ⟨hv.waitCause, hv.ctxCause, hv.cancelCause, hv.runCause, hv.timerCause,
      hv.doneCause, hv.startsEq, hv.noCrash, hv.cClosed, hv.rClosed, hv.cCloses,
      hv.rCloses, hv.cSendsFin, hv.rSendsReg, hv.cPendSends, hv.rPendActive,
      hv.activeNotReg, hv.finalisedNotReg, hv.notWaitNotReg, hv.runActive,
      hv.timerActive, hv.runNoPend, hv.timerNoPend, hv.doneExecInactive⟩
  | ctx h0 =>
    exact ⟨hv.waitCause, hv.ctxCause, hv.cancelCause, hv.runCause, hv.timerCause,
      hv.doneCause, hv.startsEq, hv.noCrash, hv.cClosed, hv.rClosed, hv.cCloses,
      hv.rCloses, hv.cSendsFin, hv.rSendsReg, hv.cPendSends, hv.rPendActive,
      hv.activeNotReg, hv.finalisedNotReg, hv.notWaitNotReg, hv.runActive,
      hv.timerActive, hv.runNoPend, hv.timerNoPend, hv.doneExecInactive⟩
  | cancelCall =>
    by_cases hreg : s.registered = false
    · rw [cancelJobStep_noReg hreg]
      exact ⟨hv.waitCause, hv.ctxCause, hv.cancelCause, hv.runCause, hv.timerCause,
        hv.doneCause, hv.startsEq, hv.noCrash, hv.cClosed, hv.rClosed, hv.cCloses,
        hv.rCloses, hv.cSendsFin, hv.rSendsReg, hv.cPendSends, hv.rPendActive,
        hv.activeNotReg, hv.finalisedNotReg, hv.notWaitNotReg, hv.runActive,
        hv.timerActive, hv.runNoPend, hv.timerNoPend, hv.doneExecInactive⟩
    · have hreg' : s.registered = true := bool_not_false hreg
      have hfin : s.job.finalised = false := by
        cases hf : s.job.finalised
        · rfl
        · rw [hv.finalisedNotReg hf] at hreg'
          exact nomatch hreg'
      have hcl : s.job.cancelCh.closed = false := by
        cases hc : s.job.cancelCh.closed
        · rfl
        · have hfc : finClosed s = true := by rw [← hv.cClosed]; exact hc
          rw [hv.notWaitNotReg (by simp [finClosed_done hfc])] at hreg'
          exact nomatch hreg'
      rw [cancelJobStep_send hreg' hfin hcl]
      refine ⟨hv.waitCause, hv.ctxCause, hv.cancelCause, hv.runCause, hv.timerCause,
        hv.doneCause, hv.startsEq, hv.noCrash, hv.cClosed, hv.rClosed, hv.cCloses,
        hv.rCloses, ?_, ?_, ?_, hv.rPendActive, ?_, ?_, ?_, hv.runActive,
        hv.timerActive, hv.runNoPend, hv.timerNoPend, hv.doneExecInactive⟩
      · intro hf
        exact nomatch hf
      · intro hr
        exact nomatch hr
      · intro _
        exact Nat.le_add_left 1 _
      · intro _
        rfl
      · intro _
        rfl
      · intro _
        rfl
  | runCall =>
    by_cases hreg : s.registered = false
    · rw [runJobStep_noReg hreg]
      exact ⟨hv.waitCause, hv.ctxCause, hv.cancelCause, hv.runCause, hv.timerCause,
        hv.doneCause, hv.startsEq, hv.noCrash, hv.cClosed, hv.rClosed, hv.cCloses,
        hv.rCloses, hv.cSendsFin, hv.rSendsReg, hv.cPendSends, hv.rPendActive,
        hv.activeNotReg, hv.finalisedNotReg, hv.notWaitNotReg, hv.runActive,
        hv.timerActive, hv.runNoPend, hv.timerNoPend, hv.doneExecInactive⟩
    · have hreg' : s.registered = true := bool_not_false hreg
      have hact : s.job.active = false := by
        cases ha : s.job.active
        · rfl
        · rw [hv.activeNotReg ha] at hreg'
          exact nomatch hreg'
      have hfin : s.job.finalised = false := by
        cases hf : s.job.finalised
        · rfl
        · rw [hv.finalisedNotReg hf] at hreg'
          exact nomatch hreg'
      have hcl : s.job.runCh.closed = false := by
        cases hc : s.job.runCh.closed
        · rfl
        · have hfc : finClosed s = true := by rw [← hv.rClosed]; exact hc
          rw [hv.notWaitNotReg (by simp [finClosed_done hfc])] at hreg'
          exact nomatch hreg'
      have hw : s.pc = PC.waiting := by
        by_cases hpw : s.pc = PC.waiting
        · exact hpw
        · rw [hv.notWaitNotReg hpw] at hreg'
          exact nomatch hreg'
      rw [runJobStep_send hreg' hact hfin hcl]
      refine ⟨hv.waitCause, hv.ctxCause, hv.cancelCause, hv.runCause, hv.timerCause,
        hv.doneCause, hv.startsEq, hv.noCrash, hv.cClosed, hv.rClosed, hv.cCloses,
        hv.rCloses, hv.cSendsFin, ?_, hv.cPendSends, ?_, ?_, ?_, ?_, ?_, ?_, ?_, ?_, ?_⟩
      · intro hr
        exact nomatch hr
      · intro _
        rfl
      · intro _
        rfl
      · intro _
        rfl
      · intro _
        rfl
      · intro _
        rfl
      · intro _
        rfl
      · intro hpc
        have hpc' : s.pc = PC.runExecuting := hpc
        rw [hw] at hpc'
        exact nomatch hpc'
      · intro hpc
        have hpc' : s.pc = PC.timerExecuting := hpc
        rw [hw] at hpc'
        exact nomatch hpc'
      · intro hpc _
        have hpc' : s.pc = PC.done := hpc
        rw [hw] at hpc'
        exact nomatch hpc'
  | selectCtx hw hcd =>
    have h0 : s.termCause = none := hv.waitCause hw
    refine ⟨?_, ?_, ?_, ?_, ?_, ?_, ?_, hv.noCrash, ?_, ?_, ?_, ?_, hv.cSendsFin,
      ?_, hv.cPendSends, hv.rPendActive, ?_, ?_, ?_, ?_, ?_, ?_, ?_, ?_⟩
    · intro hp
      exact nomatch hp
    · intro _
      rfl
    · intro hp
      exact nomatch hp
    · intro hp
      exact nomatch hp
    · intro hp
      exact nomatch hp
    · intro hp
      exact nomatch hp
    · simp [causeStarts, hv.startsEq, h0]
    · simpa [finClosed, hw] using hv.cClosed
    · simpa [finClosed, hw] using hv.rClosed
    · simpa [finClosed, hw] using hv.cCloses
    · simpa [finClosed, hw] using hv.rCloses
    · intro hr
      exact nomatch hr
    · intro _
      rfl
    · intro _
      rfl
    · intro _
      rfl
    · intro hp
      exact nomatch hp
    · intro hp
      exact nomatch hp
    · intro hp
      exact nomatch hp
    · intro hp
      exact nomatch hp
    · intro hp
      exact nomatch hp
  | selectCancel hw hp =>
    have h0 : s.termCause = none := hv.waitCause hw
    refine ⟨?_, ?_, ?_, ?_, ?_, ?_, ?_, hv.noCrash, ?_, ?_, ?_, ?_, hv.cSendsFin,
      hv.rSendsReg, ?_, hv.rPendActive, hv.activeNotReg, hv.finalisedNotReg,
      ?_, ?_, ?_, ?_, ?_, ?_⟩
    · intro hq
      exact nomatch hq
    · intro hq
      exact nomatch hq
    · intro _
      rfl
    · intro hq
      exact nomatch hq
    · intro hq
      exact nomatch hq
    · intro hq
      exact nomatch hq
    · simp [causeStarts, hv.startsEq, h0]
    · simpa [finClosed, hw] using hv.cClosed
    · simpa [finClosed, hw] using hv.rClosed
    · simpa [finClosed, hw] using hv.cCloses
    · simpa [finClosed, hw] using hv.rCloses
    · intro hq
      exact nomatch hq
    · intro _
      have h1 := hv.cPendSends hp
      have hfin : s.job.finalised = true := by
        cases hf : s.job.finalised
        · rw [hv.cSendsFin hf] at h1
          omega
        · rfl
      exact hv.finalisedNotReg hfin
    · intro hq
      exact nomatch hq
    · intro hq
      exact nomatch hq
    · intro hq
      exact nomatch hq
    · intro hq
      exact nomatch hq
    · intro hq
      exact nomatch hq
  | selectRun hw hp =>
    have h0 : s.termCause = none := hv.waitCause hw
    refine ⟨?_, ?_, ?_, ?_, ?_, ?_, ?_, hv.noCrash, ?_, ?_, ?_, ?_, hv.cSendsFin,
      hv.rSendsReg, hv.cPendSends, ?_, hv.activeNotReg, hv.finalisedNotReg,
      ?_, ?_, ?_, ?_, ?_, ?_⟩
    · intro hq
      exact nomatch hq
    · intro hq
      exact nomatch hq
    · intro hq
      exact nomatch hq
    · intro _
      rfl
    · intro hq
      exact nomatch hq
    · intro hq
      exact nomatch hq
    · simp [causeStarts, hv.startsEq, h0]
    · simpa [finClosed, hw] using hv.cClosed
    · simpa [finClosed, hw] using hv.rClosed
    · simpa [finClosed, hw] using hv.cCloses
    · simpa [finClosed, hw] using hv.rCloses
    · intro hq
      exact nomatch hq
    · intro _
      exact hv.activeNotReg (hv.rPendActive hp)
    · intro _
      exact hv.rPendActive hp
    · intro hq
      exact nomatch hq
    · intro _
      rfl
    · intro hq
      exact nomatch hq
    · intro hq
      exact nomatch hq
  | selectTimerSkip hw ht ha =>
    have h0 : s.termCause = none := hv.waitCause hw
    refine ⟨?_, ?_, ?_, ?_, ?_, ?_, ?_, hv.noCrash, ?_, ?_, ?_, ?_, hv.cSendsFin,
      hv.rSendsReg, hv.cPendSends, hv.rPendActive, hv.activeNotReg,
      hv.finalisedNotReg, ?_, ?_, ?_, ?_, ?_, ?_⟩
    · intro hq
      exact nomatch hq
    · intro hq
      exact nomatch hq
    · intro hq
      exact nomatch hq
    · intro hq
      exact nomatch hq
    · intro hq
      exact nomatch hq
    · intro _ hq
      exact nomatch hq
    · simp [causeStarts, hv.startsEq, h0]
    · simpa [finClosed, hw] using hv.cClosed
    · simpa [finClosed, hw] using hv.rClosed
    · simpa [finClosed, hw] using hv.cCloses
    · simpa [finClosed, hw] using hv.rCloses
    · intro _
      exact hv.activeNotReg ha
    · intro hq
      exact nomatch hq
    · intro hq
      exact nomatch hq
    · intro hq
      exact nomatch hq
    · intro hq
      exact nomatch hq
    · intro _ hc
      rcases hc with hc | hc
      · exact nomatch hc
      · exact nomatch hc
  | selectTimerExec hw ht ha =>
    have h0 : s.termCause = none := hv.waitCause hw
    refine ⟨?_, ?_, ?_, ?_, ?_, ?_, ?_, hv.noCrash, ?_, ?_, ?_, ?_, hv.cSendsFin,
      ?_, hv.cPendSends, ?_, ?_, ?_, ?_, ?_, ?_, ?_, ?_, ?_⟩
    · intro hq
      exact nomatch hq
    · intro hq
      exact nomatch hq
    · intro hq
      exact nomatch hq
    · intro hq
      exact nomatch hq
    · intro _
      rfl
    · intro hq
      exact nomatch hq
    · simp [causeStarts, hv.startsEq, h0]
    · simpa [finClosed, hw] using hv.cClosed
    · simpa [finClosed, hw] using hv.rClosed
    · simpa [finClosed, hw] using hv.cCloses
    · simpa [finClosed, hw] using hv.rCloses
    · intro hq
      exact nomatch hq
    · intro _
      rfl
    · intro _
      rfl
    · intro _
      rfl
    · intro _
      rfl
    · intro hq
      exact nomatch hq
    · intro _
      rfl
    · intro hq
      exact nomatch hq
    · intro _
      show s.job.runCh.pending = false
      cases hq : s.job.runCh.pending
      · rfl
      · have h2 := hv.rPendActive hq
        rw [ha] at h2
        exact nomatch h2
    · intro hq
      exact nomatch hq
  | finishCtx hw =>
    have hcause := hv.ctxCause hw
    have hfc : finClosed s = false := by simp [finClosed, hw]
    have hclC : s.job.cancelCh.closed = false := by rw [hv.cClosed, hfc]
    have hclR : s.job.runCh.closed = false := by rw [hv.rClosed, hfc]
    have hc0 : s.job.cancelCh.closes = 0 := by rw [hv.cCloses, hfc]; rfl
    have hr0 : s.job.runCh.closes = 0 := by rw [hv.rCloses, hfc]; rfl
    rw [finaliseJob_open hclC hclR]
    refine ⟨?_, ?_, ?_, ?_, ?_, ?_, hv.startsEq, hv.noCrash, ?_, ?_, ?_, ?_,
      ?_, ?_, hv.cPendSends, hv.rPendActive, hv.activeNotReg, ?_, ?_, ?_, ?_, ?_,
      ?_, ?_⟩
    · intro hq
      exact nomatch hq
    · intro hq
      exact nomatch hq
    · intro hq
      exact nomatch hq
    · intro hq
      exact nomatch hq
    · intro hq
      exact nomatch hq
    · intro _ hnone
      have h2 : s.termCause = none := hnone
      rw [hcause] at h2
      exact nomatch h2
    · simp [finClosed, hcause]
    · simp [finClosed, hcause]
    · simp [finClosed, hcause, hc0]
    · simp [finClosed, hcause, hr0]
    · intro hf
      exact nomatch hf
    · intro hr
      have h2 : s.registered = true := hr
      rw [hv.notWaitNotReg (by simp [hw])] at h2
      exact nomatch h2
    · intro _
      exact hv.notWaitNotReg (by simp [hw])
    · intro _
      exact hv.notWaitNotReg (by simp [hw])
    · intro hq
      exact nomatch hq
    · intro hq
      exact nomatch hq
    · intro hq
      exact nomatch hq
    · intro hq
      exact nomatch hq
    · intro _ hc
      rcases hc with hc | hc
      · have h2 : s.termCause = some Cause.run := hc
        rw [hcause] at h2
        exact nomatch h2
      · have h2 : s.termCause = some Cause.timerExec := hc
        rw [hcause] at h2
        exact nomatch h2
  | finishCancel hw =>
    have hcause := hv.cancelCause hw
    have hfc : finClosed s = false := by simp [finClosed, hw]
    have hclC : s.job.cancelCh.closed = false := by rw [hv.cClosed, hfc]
    have hclR : s.job.runCh.closed = false := by rw [hv.rClosed, hfc]
    have hc0 : s.job.cancelCh.closes = 0 := by rw [hv.cCloses, hfc]; rfl
    have hr0 : s.job.runCh.closes = 0 := by rw [hv.rCloses, hfc]; rfl
    rw [finaliseJob_open hclC hclR]
    refine ⟨?_, ?_, ?_, ?_, ?_, ?_, hv.startsEq, hv.noCrash, ?_, ?_, ?_, ?_,
      ?_, ?_, hv.cPendSends, hv.rPendActive, hv.activeNotReg, ?_, ?_, ?_, ?_, ?_,
      ?_, ?_⟩
    · intro hq
      exact nomatch hq
    · intro hq
      exact nomatch hq
    · intro hq
      exact nomatch hq
    · intro hq
      exact nomatch hq
    · intro hq
      exact nomatch hq
    · intro _ hnone
      have h2 : s.termCause = none := hnone
      rw [hcause] at h2
      exact nomatch h2
    · simp [finClosed, hcause]
    · simp [finClosed, hcause]
    · simp [finClosed, hcause, hc0]
    · simp [finClosed, hcause, hr0]
    · intro hf
      exact nomatch hf
    · intro hr
      have h2 : s.registered = true := hr
      rw [hv.notWaitNotReg (by simp [hw])] at h2
      exact nomatch h2
    · intro _
      exact hv.notWaitNotReg (by simp [hw])
    · intro _
      exact hv.notWaitNotReg (by simp [hw])
    · intro hq
      exact nomatch hq
    · intro hq
      exact nomatch hq
    · intro hq
      exact nomatch hq
    · intro hq
      exact nomatch hq
    · intro _ hc
      rcases hc with hc | hc
      · have h2 : s.termCause = some Cause.run := hc
        rw [hcause] at h2
        exact nomatch h2
      · have h2 : s.termCause = some Cause.timerExec := hc
        rw [hcause] at h2
        exact nomatch h2
  | finishRun hw =>
    have hcause := hv.runCause hw
    have hfc : finClosed s = false := by simp [finClosed, hw]
    have hclC : s.job.cancelCh.closed = false := by rw [hv.cClosed, hfc]
    have hclR : s.job.runCh.closed = false := by rw [hv.rClosed, hfc]
    have hc0 : s.job.cancelCh.closes = 0 := by rw [hv.cCloses, hfc]; rfl
    have hr0 : s.job.runCh.closes = 0 := by rw [hv.rCloses, hfc]; rfl
    rw [finaliseJob_open hclC hclR]
    refine ⟨?_, ?_, ?_, ?_, ?_, ?_, hv.startsEq, hv.noCrash, ?_, ?_, ?_, ?_,
      ?_, ?_, hv.cPendSends, ?_, ?_, ?_, ?_, ?_, ?_, ?_, ?_, ?_⟩
    · intro hq
      exact nomatch hq
    · intro hq
      exact nomatch hq
    · intro hq
      exact nomatch hq
    · intro hq
      exact nomatch hq
    · intro hq
      exact nomatch hq
    · intro _ hnone
      have h2 : s.termCause = none := hnone
      rw [hcause] at h2
      exact nomatch h2
    · simp [finClosed, hcause]
    · simp [finClosed, hcause]
    · simp [finClosed, hcause, hc0]
    · simp [finClosed, hcause, hr0]
    · intro hf
      exact nomatch hf
    · intro hr
      have h2 : s.registered = true := hr
      rw [hv.notWaitNotReg (by simp [hw])] at h2
      exact nomatch h2
    · intro hq
      have h2 : s.job.runCh.pending = true := hq
      rw [hv.runNoPend hw] at h2
      exact nomatch h2
    · intro _
      exact hv.notWaitNotReg (by simp [hw])
    · intro _
      exact hv.notWaitNotReg (by simp [hw])
    · intro _
      exact hv.notWaitNotReg (by simp [hw])
    · intro hq
      exact nomatch hq
    · intro hq
      exact nomatch hq
    · intro hq
      exact nomatch hq
    · intro hq
      exact nomatch hq
    · intro _ _
      rfl
  | finishTimer hw =>
    have hcause := hv.timerCause hw
    have hfc : finClosed s = false := by simp [finClosed, hw]
    have hclC : s.job.cancelCh.closed = false := by rw [hv.cClosed, hfc]
    have hclR : s.job.runCh.closed = false := by rw [hv.rClosed, hfc]
    have hc0 : s.job.cancelCh.closes = 0 := by rw [hv.cCloses, hfc]; rfl
    have hr0 : s.job.runCh.closes = 0 := by rw [hv.rCloses, hfc]; rfl
    rw [@finaliseJob_open { s.job with active := false } hclC hclR]
    refine ⟨?_, ?_, ?_, ?_, ?_, ?_, hv.startsEq, hv.noCrash, ?_, ?_, ?_, ?_,
      ?_, ?_, hv.cPendSends, ?_, ?_, ?_, ?_, ?_, ?_, ?_, ?_, ?_⟩
    · intro hq
      exact nomatch hq
    · intro hq
      exact nomatch hq
    · intro hq
      exact nomatch hq
    · intro hq
      exact nomatch hq
    · intro hq
      exact nomatch hq
    · intro _ hnone
      have h2 : s.termCause = none := hnone
      rw [hcause] at h2
      exact nomatch h2
    · simp [finClosed, hcause]
    · simp [finClosed, hcause]
    · simp [finClosed, hcause, hc0]
    · simp [finClosed, hcause, hr0]
    · intro hf
      exact nomatch hf
    · intro hr
      have h2 : s.registered = true := hr
      rw [hv.notWaitNotReg (by simp [hw])] at h2
      exact nomatch h2
    · intro hq
      have h2 : s.job.runCh.pending = true := hq
      rw [hv.timerNoPend hw] at h2
      exact nomatch h2
    · intro _
      exact hv.notWaitNotReg (by simp [hw])
    · intro _
      exact hv.notWaitNotReg (by simp [hw])
    · intro _
      exact hv.notWaitNotReg (by simp [hw])
    · intro hq
      exact nomatch hq
    · intro hq
      exact nomatch hq
    · intro hq
      exact nomatch hq
    · intro hq
      exact nomatch hq
    · intro _ _
      rfl

/-- The invariant holds along every run. -/
theorem steps_inv {s : St} {ls : List Lab} {t : St} (h : Steps s ls t) (hv : InvS s) :
    InvS t := by
  induction h with
  | nil _ => exact hv
  | cons hstep _ ih => exact ih (step_inv hv hstep)

/-- Every reachable state satisfies the invariant. -/
theorem reach_inv {s : St} (h : Reach s) : InvS s := by
  obtain ⟨ls, hls⟩ := h
  exact steps_inv hls init_inv

/-- Once `finalised` is set, no step sends on either signal channel:
the only sends sit in `CancelJob` and `runJob`, both behind a
`finalised` test under the record's state lock. -/
theorem step_sends_frozen {s : St} {l : Lab} {t : St} (h : Step s l t)
    (hf : s.job.finalised = true) :
    t.job.cancelCh.sends = s.job.cancelCh.sends ∧
      t.job.runCh.sends = s.job.runCh.sends := by
  cases h with
  | timer h0 => exact ⟨rfl, rfl⟩
  | ctx h0 => exact ⟨rfl, rfl⟩
  | cancelCall =>
    by_cases hreg : s.registered = false
    · rw [cancelJobStep_noReg hreg]
      exact ⟨rfl, rfl⟩
    · rw [cancelJobStep_finalised (bool_not_false hreg) hf]
      exact ⟨rfl, rfl⟩
  | runCall =>
    by_cases hreg : s.registered = false
    · rw [runJobStep_noReg hreg]
      exact ⟨rfl, rfl⟩
    · have hreg' := bool_not_false hreg
      by_cases ha : s.job.active = true
      · rw [runJobStep_running hreg' ha]
        exact ⟨rfl, rfl⟩
      · rw [runJobStep_finalised hreg' (bool_not_true ha) hf]
        exact ⟨rfl, rfl⟩
  | selectCtx hw hcd => exact ⟨rfl, rfl⟩
  | selectCancel hw hp => exact ⟨rfl, rfl⟩
  | selectRun hw hp => exact ⟨rfl, rfl⟩
  | selectTimerSkip hw ht ha => exact ⟨rfl, rfl⟩
  | selectTimerExec hw ht ha => exact ⟨rfl, rfl⟩
  | finishCtx hw => exact finaliseJob_sends s.job
  | finishCancel hw => exact finaliseJob_sends s.job
  | finishRun hw => exact ⟨chanClose_sends s.job.cancelCh, chanClose_sends s.job.runCh⟩
  | finishTimer hw => exact ⟨chanClose_sends s.job.cancelCh, chanClose_sends s.job.runCh⟩

/-- C1 (amended): in every reachable state of the one-off system the
job function has been started at most once — the timer path and the
run-signal path are mutually exclusive — and a runner that has exited
did so through exactly one committed `select` case (context done,
cancel signal, run signal, timer execution, or the timer-fired-while-
active skip).  The claim's stronger reading, that a successful `RunJob`
before the scheduled time always yields exactly one execution, fails:
see the counterexample, where the run is the skip case and the job
never executes. -/
theorem oneOff_executes_at_most_once (s : St) (hs : Reach s) :
    s.jobStarts ≤ 1 ∧ (s.pc = PC.done → s.termCause ≠ none) ∧
      ((s.termCause = some Cause.run ∨ s.termCause = some Cause.timerExec) →
        s.jobStarts = 1) := by
  have hv := reach_inv hs
  refine ⟨?_, hv.doneCause, ?_⟩
  · rw [hv.startsEq]
    cases hc : s.termCause with
    | none => simp [causeStarts]
    | some c => cases c <;> simp [causeStarts]
  · intro hc
    rcases hc with hc | hc <;> rw [hv.startsEq, hc] <;> rfl

/-- C1 witness: the timer-executed terminal state is reachable,
executed the job exactly once and records a single terminal cause. -/
theorem oneOff_executes_at_most_once_witness :
    sTimerRun.jobStarts ≤ 1 ∧ (sTimerRun.pc = PC.done → sTimerRun.termCause ≠ none) ∧
      ((sTimerRun.termCause = some Cause.run ∨
          sTimerRun.termCause = some Cause.timerExec) →
        sTimerRun.jobStarts = 1) :=
  oneOff_executes_at_most_once sTimerRun
    ⟨[Lab.timer, Lab.selectTimerExec, Lab.finishTimer],
      Steps.cons (Step.timer init rfl)
        (Steps.cons (Step.selectTimerExec _ rfl rfl rfl)
          (Steps.cons (Step.finishTimer _ rfl) (Steps.nil _)))⟩

/-- C1 counterexample: a successful `RunJob` issued before the
scheduled time (the run signal is queued while the timer has not yet
fired), followed by timer expiry before the runner commits, lets the
`select` take the timer case, which sees the active flag and breaks
(service.go lines 129-133): the runner exits with the job executed
zero times — not exactly once — and with a terminal cause outside the
claim's four-element list. -/
theorem oneOff_run_signal_starved :
    ∃ t : St, Steps init [Lab.runCall none, Lab.timer, Lab.selectTimerSkip] t ∧
      t.pc = PC.done ∧ t.termCause = some Cause.timerSkip ∧ t.jobStarts = 0 := by
  refine ⟨_, Steps.cons (Step.runCall init)
      (Steps.cons (Step.timer _ rfl)
        (Steps.cons (Step.selectTimerSkip _ rfl rfl rfl) (Steps.nil _))),
    rfl, rfl, rfl⟩

/-- C2 (amended): in every reachable state no channel operation has
panicked and each signal channel has been closed at most once — the
runner invokes `finaliseJob` at most once — and from a state whose
record is finalised no step increases either channel's send counter:
the `finalised` test guarding the sends sits in `CancelJob` and
`runJob`, not inside `finaliseJob`, which closes unconditionally (see
the counterexample). -/
theorem finalisation_once_and_sends_stop (s t : St) (l : Lab) (hs : Reach s) :
    s.job.crashed = false ∧ s.job.cancelCh.closes ≤ 1 ∧ s.job.runCh.closes ≤ 1 ∧
      (Step s l t → s.job.finalised = true →
        t.job.cancelCh.sends = s.job.cancelCh.sends ∧
          t.job.runCh.sends = s.job.runCh.sends) := by
  have hv := reach_inv hs
  refine ⟨hv.noCrash, ?_, ?_, fun hst hf => step_sends_frozen hst hf⟩
  · rw [hv.cCloses]
    split <;> omega
  · rw [hv.rCloses]
    split <;> omega

/-- C2 witness: after a successful cancel the record is finalised and
reachable, nothing has panicked, and the timer firing changes no send
counter. -/
theorem finalisation_once_and_sends_stop_witness :
    sCancelled.job.crashed = false ∧ sCancelled.job.cancelCh.closes ≤ 1 ∧
      sCancelled.job.runCh.closes ≤ 1 ∧
      (Step sCancelled Lab.timer sCancelledT → sCancelled.job.finalised = true →
        sCancelledT.job.cancelCh.sends = sCancelled.job.cancelCh.sends ∧
          sCancelledT.job.runCh.sends = sCancelled.job.runCh.sends) :=
  finalisation_once_and_sends_stop sCancelled sCancelledT Lab.timer
    ⟨[Lab.cancelCall none], Steps.cons (Step.cancelCall init) (Steps.nil _)⟩

/-- C2 counterexample: `finaliseJob` contains no `finalised` check —
it closes both channels unconditionally — so applying it to an
already-finalised record closes two already-closed channels, a Go
run-time panic. -/
theorem finaliseJob_unguarded_double_close :
    (finaliseJob ({} : Job)).finalised = true ∧
      (finaliseJob (finaliseJob ({} : Job))).crashed = true := by
  constructor <;> rfl

/-- C3 (amended): once the runner has observed the cancel signal
(committed the `select` cancel case) the job function has never run and
never will in that run — `jobStarts` is pinned to zero; but `CancelJob`
invoked after a one-off job has started executing returns `NoSuchJob`,
not success, because the entry was removed from the registry when the
execution began, and it leaves the state unchanged. -/
theorem cancel_branch_blocks_execution (s : St) (hs : Reach s) :
    (s.termCause = some Cause.cancel → s.jobStarts = 0) ∧
      ((s.pc = PC.runExecuting ∨ s.pc = PC.timerExecuting) →
        cancelJobStep s = (s, some GoErr.noSuchJob)) := by
  have hv := reach_inv hs
  constructor
  · intro hc
    rw [hv.startsEq, hc]
    rfl
  · intro hex
    have hreg : s.registered = false := by
      rcases hex with h | h
      · exact hv.notWaitNotReg (by simp [h])
      · exact hv.notWaitNotReg (by simp [h])
    exact cancelJobStep_noReg hreg

/-- C3 witness: in the reachable state where the runner is executing
the job after a run signal, `CancelJob` returns `NoSuchJob` and leaves
the state unchanged. -/
theorem cancel_branch_blocks_execution_witness :
    (sRunning.termCause = some Cause.cancel → sRunning.jobStarts = 0) ∧
      ((sRunning.pc = PC.runExecuting ∨ sRunning.pc = PC.timerExecuting) →
        cancelJobStep sRunning = (sRunning, some GoErr.noSuchJob)) :=
  cancel_branch_blocks_execution sRunning
    ⟨[Lab.runCall none, Lab.selectRun],
      Steps.cons (Step.runCall init)
        (Steps.cons (Step.selectRun _ rfl rfl) (Steps.nil _))⟩

/-- C3 counterexample: one run refuting both halves of the claim.  A
successful `CancelJob` (returning nil) is issued while the job has
never executed; the timer then fires and the runner's `select`,
choosing among ready cases, commits to the timer case — whose guard
tests only `active`, not `finalised` (service.go line 130) — and
executes the job function: a successful cancel before execution did
not prevent execution.  A second `CancelJob`, issued while the job
function is executing, returns `NoSuchJob` instead of the success the
claim promises. -/
theorem cancel_not_exclusive :
    ∃ t : St,
      Steps init [Lab.cancelCall none, Lab.timer, Lab.selectTimerExec,
        Lab.cancelCall (some GoErr.noSuchJob)] t ∧
        t.jobStarts = 1 ∧ t.pc = PC.timerExecuting := by
  refine ⟨_, Steps.cons (Step.cancelCall init)
      (Steps.cons (Step.timer _ rfl)
        (Steps.cons (Step.selectTimerExec _ rfl rfl rfl)
          (Steps.cons (Step.cancelCall _) (Steps.nil _)))),
    rfl, rfl⟩

/-- C8 (amended): whenever the runner is executing the job function the
active flag is true, and on the two paths that execute the job the
flag is false again once the runner has exited; but `runJob` sets
`active` before the run signal is even delivered, so the flag can be
true while the job function is not yet executing (see the
counterexample). -/
theorem active_flag_during_execution (s : St) (hs : Reach s) :
    ((s.pc = PC.runExecuting ∨ s.pc = PC.timerExecuting) → s.job.active = true) ∧
      (s.pc = PC.done →
        (s.termCause = some Cause.run ∨ s.termCause = some Cause.timerExec) →
        s.job.active = false) := by
  have hv := reach_inv hs
  exact ⟨fun h => h.elim hv.runActive hv.timerActive, hv.doneExecInactive⟩

/-- C8 witness: while the runner executes the run-signalled job the
active flag is set, and in the timer-executed terminal state it is
clear again. -/
theorem active_flag_during_execution_witness :
    (((sRunning.pc = PC.runExecuting ∨ sRunning.pc = PC.timerExecuting) →
        sRunning.job.active = true) ∧
      (sRunning.pc = PC.done →
        (sRunning.termCause = some Cause.run ∨
          sRunning.termCause = some Cause.timerExec) →
        sRunning.job.active = false)) ∧
    ((sTimerRun.pc = PC.done →
        (sTimerRun.termCause = some Cause.run ∨
          sTimerRun.termCause = some Cause.timerExec) →
        sTimerRun.job.active = false)) :=
  ⟨active_flag_during_execution sRunning
      ⟨[Lab.runCall none, Lab.selectRun],
        Steps.cons (Step.runCall init)
          (Steps.cons (Step.selectRun _ rfl rfl) (Steps.nil _))⟩,
    (active_flag_during_execution sTimerRun
      ⟨[Lab.timer, Lab.selectTimerExec, Lab.finishTimer],
        Steps.cons (Step.timer init rfl)
          (Steps.cons (Step.selectTimerExec _ rfl rfl rfl)
            (Steps.cons (Step.finishTimer _ rfl) (Steps.nil _)))⟩).2⟩

/-- C8 counterexample: after one successful `RunJob` call the runner is
still parked at its `select` — the job function has not begun — yet
the record's active flag is already true, because `runJob` stores
`active` before sending the run signal (service.go lines 380-381).  So
an operation does set `active` to true before the job function begins
executing, and `active` is not true exactly while the job function is
executing. -/
theorem active_set_before_execution :
    ∃ t : St, Steps init [Lab.runCall none] t ∧
      t.job.active = true ∧ t.pc = PC.waiting ∧ t.jobStarts = 0 := by
  refine ⟨_, Steps.cons (Step.runCall init) (Steps.nil _), rfl, rfl, rfl⟩

end OneOff

end Chaind
